import Mathlib

/-!
Verification development for the seat-booking concurrency core.

The definitions below are a shallow embedding of the TypeScript sources:
`src/common/config/env.ts`, `src/common/lock/redlock.service.ts`,
`src/common/idempotency/idempotency.service.ts` (with its
`TransactionService`), `src/booking/booking.service.ts` (Redlock variant),
`src/booking/booking.cleanup.service.ts`, and `src/seat/seat.service.ts`.
Machine time is modelled as an integer count of milliseconds, JavaScript
numbers used by the config accessor as an inductive of NaN, the infinities
and a rational, and the transactional store as explicit record lists with
rollback-on-error semantics.
-/

deriving instance DecidableEq for Except

namespace BookingConc

/-! ### Config accessor (`src/common/config/env.ts`) -/

/-- The result of applying JavaScript coercion `Number(...)` to an
environment value: `NaN` (unset or non-numeric input), an infinity, or a
finite number modelled as a rational. -/
inductive JsNumber : Type
  | nan : JsNumber
  | posInf : JsNumber
  | negInf : JsNumber
  | finite (q : ℚ) : JsNumber
deriving DecidableEq

/-- `Number.isFinite`, false on `NaN` and the infinities. -/
def jsIsFinite : JsNumber → Bool
  | .finite _ => true
  | _ => false

/-- `envNumber` from `env.ts`: return the coerced environment value when it
is finite and strictly positive, the default otherwise. -/
def envNumber (value : JsNumber) (defaultValue : ℚ) : ℚ :=
  match value with
  | .finite q => if 0 < q then q else defaultValue
  | _ => defaultValue

/-! ### Distributed lock manager (`src/common/lock/redlock.service.ts`) -/

/-- The configuration of `RedlockService`: node count, drift factor and the
retry policy, all resolved once in the constructor. -/
structure RedlockConfig : Type where
  nNodes : Nat
  driftFactor : ℚ
  retryCount : Nat
  retryDelayMs : Int
deriving DecidableEq

/-- `this.quorum = Math.floor(this.clients.length / 2) + 1`. -/
def quorum (cfg : RedlockConfig) : Nat := cfg.nNodes / 2 + 1

/-- `Math.floor(ttlMs * this.driftFactor)`, the drift discount applied to
the nominal TTL. -/
def driftDiscount (cfg : RedlockConfig) (ttlMs : Int) : Int :=
  Int.floor ((ttlMs : ℚ) * cfg.driftFactor)

/-- What one iteration of the acquisition loop observes: the per-node
outcome of the conditional `SET ... NX PX` round, and the elapsed time
`Date.now() - startTime` at the validity computation. -/
structure AttemptObs : Type where
  nodeAcquired : List Bool
  elapsedMs : Int
deriving DecidableEq

/-- Outcome of `acquireLock`: the up-front TTL check threw before any node
was contacted, or the lock was reported held with a validity time, or all
retries were exhausted and the lock-unavailable `ConflictException` was
thrown.  `attemptsUsed` counts set-if-absent rounds issued and `rollbacks`
counts calls to `releaseLockOnAllInstances`. -/
inductive AcquireOutcome : Type
  | tooShort : AcquireOutcome
  | held (validityTime : Int) (attemptsUsed rollbacks : Nat) : AcquireOutcome
  | unavailable (attemptsUsed rollbacks : Nat) : AcquireOutcome
deriving DecidableEq

/-- The `while (attempt < this.retryCount)` loop of `acquireLock`, one
`AttemptObs` per iteration.  A quorum of node successes returns the lock as
held with validity `max(ttlMs - elapsed - drift, 0)`; otherwise the nodes
are rolled back and the loop continues, throwing after the last attempt. -/
def acquireLoop (q : Nat) (ttlMs drift : Int) (obs : List AttemptObs)
    (used rollbacks : Nat) : AcquireOutcome :=
  match obs with
  | [] => .unavailable used rollbacks
  | o :: rest =>
    if q ≤ o.nodeAcquired.count true then
      .held (max (ttlMs - o.elapsedMs - drift) 0) (used + 1) rollbacks
    else
      acquireLoop q ttlMs drift rest (used + 1) (rollbacks + 1)

/-- `acquireLock`: computes `validityTime = ttlMs - floor(ttlMs*drift) -
(Date.now() - startTime)` (the last term is `elapsed0`, the time between
the two `Date.now()` calls), throws `Lock TTL too short` when it is not
positive, and otherwise runs the retry loop. -/
def acquireLock (cfg : RedlockConfig) (ttlMs elapsed0 : Int)
    (obs : List AttemptObs) : AcquireOutcome :=
  if ttlMs - driftDiscount cfg ttlMs - elapsed0 ≤ 0 then
    .tooShort
  else
    acquireLoop (quorum cfg) ttlMs (driftDiscount cfg ttlMs) obs 0 0

/-- A settled promise, as produced by `Promise.allSettled`. -/
inductive SettledOutcome (ε α : Type) : Type
  | fulfilled (a : α) : SettledOutcome ε α
  | rejected (e : ε) : SettledOutcome ε α
deriving DecidableEq

/-- `Promise.allSettled`: every per-node promise is turned into a settled
verdict; a rejection is recorded, never propagated. -/
def allSettled {ε α : Type} (results : List (Except ε α)) :
    List (SettledOutcome ε α) :=
  results.map fun r =>
    match r with
    | .ok a => .fulfilled a
    | .error e => .rejected e

/-- `releaseLockOnAllInstances`: issue the compare-and-delete against every
node and settle all of them, swallowing individual node failures. -/
def releaseLockOnAllInstances {ε : Type} (nodeResults : List (Except ε Bool)) :
    List (SettledOutcome ε Bool) :=
  allSettled nodeResults

/-- A run of `withLock`: the value or failure it produces, and how many
times `releaseLock` was invoked on the way out. -/
structure WithLockRun (E T : Type) : Type where
  result : Except E T
  releaseCalls : Nat

/-- `withLock`: acquire the lock (a failure propagates with nothing to
release), then run the body inside `try`/`finally`; the `finally` block
releases the lock on both the return and the throw path, and a body
failure is re-raised unchanged. -/
def withLock {E T : Type} (acquireResult : Except E Unit) (body : Except E T) :
    WithLockRun E T :=
  match acquireResult with
  | .error e => { result := .error e, releaseCalls := 0 }
  | .ok _ =>
    match body with
    | .ok v => { result := .ok v, releaseCalls := 1 }
    | .error e => { result := .error e, releaseCalls := 1 }

/-! ### Idempotency coordinator (`src/common/idempotency/idempotency.service.ts`) -/

/-- The `IdempotencyState` enum. -/
inductive IdemState : Type
  | IN_PROGRESS : IdemState
  | SUCCESS : IdemState
  | FAILED : IdemState
deriving DecidableEq

/-- A row of the `IdempotencyRecord` table. -/
structure IdempotencyRecord : Type where
  idempotencyKey : String
  state : IdemState
  requestHash : String
  responseData : Option String
  statusCode : Option Int
  createdAt : Int
  updatedAt : Int
  expiresAt : Int
deriving DecidableEq

/-- The failures `checkOrCreate` can throw: the missing-key
`BadRequestException`, the `ConflictException` variants, the
`InternalServerErrorException` for a SUCCESS record without its cached
payload, and the propagated failure of the `work` closure. -/
inductive IdemFailure (E : Type) : Type
  | badRequest : IdemFailure E
  | payloadMismatch : IdemFailure E
  | cachedResponseMissing : IdemFailure E
  | previousFailure : IdemFailure E
  | requestTimedOut : IdemFailure E
  | requestInFlight : IdemFailure E
  | workFailed (e : E) : IdemFailure E
deriving DecidableEq

/-- The `IdempotencyResult` returned on the non-throwing paths. -/
structure IdemResult : Type where
  isDuplicate : Bool
  cachedResponse : String
  statusCode : Int
deriving DecidableEq

/-- A finished call to `checkOrCreate`: the committed table contents, the
returned value or thrown failure, and whether the `work` closure ran. -/
structure IdemRun (E : Type) : Type where
  records : List IdempotencyRecord
  result : Except (IdemFailure E) IdemResult
  workRan : Bool

/-- `findUnique({ where: { idempotencyKey } })` on the record table. -/
def findRecord (records : List IdempotencyRecord) (key : String) :
    Option IdempotencyRecord :=
  records.find? fun r => decide (r.idempotencyKey = key)

/-- `update({ where: { idempotencyKey }, data: {...} })`: rewrite the row
with the given key. -/
def updateRecord (records : List IdempotencyRecord) (key : String)
    (f : IdempotencyRecord → IdempotencyRecord) : List IdempotencyRecord :=
  records.map fun r => if r.idempotencyKey = key then f r else r

/-- The `finally` block of `checkOrCreate`: set the final state, store the
serialized response and status code only on SUCCESS, refresh `updatedAt`. -/
def finalizeRecord (finalState : IdemState) (response : Option (String × Int))
    (now : Int) (r : IdempotencyRecord) : IdempotencyRecord :=
  { r with
    state := finalState
    responseData :=
      match finalState, response with
      | .SUCCESS, some (data, _) => some data
      | _, _ => none
    statusCode :=
      match finalState, response with
      | .SUCCESS, some (_, code) => some code
      | _, _ => none
    updatedAt := now }

/-- The body of the transaction inside `checkOrCreate`, returning the
table as written by the body, the outcome, and whether `work` ran.  The
`work` closure is modelled by its outcome: failure, or response data with
a status code (serialization is the identity on the modelled payload). -/
def checkOrCreateTx (E : Type) (records : List IdempotencyRecord)
    (key requestHash : String) (now ttlMs : Int)
    (work : Except E (String × Int)) :
    List IdempotencyRecord × Except (IdemFailure E) IdemResult × Bool :=
  match findRecord records key with
  | some existing =>
    if existing.requestHash ≠ requestHash then
      (records, .error .payloadMismatch, false)
    else if existing.state = .SUCCESS then
      match existing.responseData, existing.statusCode with
      | some data, some code =>
        if data = "" then
          (records, .error .cachedResponseMissing, false)
        else
          (records,
           .ok { isDuplicate := true, cachedResponse := data, statusCode := code },
           false)
      | _, _ => (records, .error .cachedResponseMissing, false)
    else if existing.state = .FAILED then
      (records, .error .previousFailure, false)
    else
      if ttlMs < now - existing.createdAt then
        (updateRecord records key fun r => { r with state := .FAILED, updatedAt := now },
         .error .requestTimedOut, false)
      else
        (records, .error .requestInFlight, false)
  | none =>
    let created := records ++
      [{ idempotencyKey := key, state := .IN_PROGRESS, requestHash := requestHash,
         responseData := none, statusCode := none,
         createdAt := now, updatedAt := now, expiresAt := now + ttlMs }]
    match work with
    | .ok (data, code) =>
      (updateRecord created key (finalizeRecord .SUCCESS (some (data, code)) now),
       .ok { isDuplicate := false, cachedResponse := data, statusCode := code },
       true)
    | .error e =>
      (updateRecord created key (finalizeRecord .FAILED none now),
       .error (.workFailed e), true)

/-- `TransactionService.runInTransaction`, i.e. `prisma.$transaction` on an
interactive callback: a callback that throws has its writes rolled back and
the error is re-thrown; a callback that returns has its writes committed. -/
def runInTransaction {ε α : Type} (initial : List IdempotencyRecord)
    (body : List IdempotencyRecord × Except ε α × Bool) :
    List IdempotencyRecord × Except ε α × Bool :=
  match body with
  | (written, .ok a, ran) => (written, .ok a, ran)
  | (_, .error e, ran) => (initial, .error e, ran)

/-- `checkOrCreate`: reject an empty key up front, then run the transition
logic inside one transaction. -/
def checkOrCreate (E : Type) (records : List IdempotencyRecord)
    (key requestHash : String) (now ttlMs : Int)
    (work : Except E (String × Int)) : IdemRun E :=
  if key = "" then
    { records := records, result := .error .badRequest, workRan := false }
  else
    match runInTransaction records (checkOrCreateTx E records key requestHash now ttlMs work) with
    | (recs, res, ran) => { records := recs, result := res, workRan := ran }

/-! ### Seat / Booking state machine (`booking.service.ts` Redlock variant,
`seat.service.ts`, `booking.cleanup.service.ts`) -/

/-- The `SeatStatus` enum. -/
inductive SeatStatus : Type
  | AVAILABLE : SeatStatus
  | HOLD : SeatStatus
  | BOOKED : SeatStatus
deriving DecidableEq

/-- The `BookingStatus` enum. -/
inductive BookingStatus : Type
  | CONFIRMED : BookingStatus
  | CANCELLED : BookingStatus
  | EXPIRED : BookingStatus
deriving DecidableEq

/-- A row of the `Seat` table. -/
structure Seat : Type where
  id : String
  status : SeatStatus
  version : Nat
  holdExpiresAt : Option Int
deriving DecidableEq

/-- A row of the `Booking` table. -/
structure Booking : Type where
  seatId : String
  userId : String
  status : BookingStatus
  idempotencyKey : String
  expiresAt : Option Int
deriving DecidableEq

/-- The transactional store of record for the resource state machine. -/
structure DB : Type where
  seats : List Seat
  bookings : List Booking
deriving DecidableEq

/-- The failures the reserve and hold transactions can throw. -/
inductive BookingFailure : Type
  | seatNotFound : BookingFailure
  | alreadyBooked : BookingFailure
  | onHold : BookingFailure
  | versionMismatch : BookingFailure
deriving DecidableEq

/-- `seat.updateMany({ where, data })`: the affected-row count and the
table with the update applied to every matching row. -/
def updateManySeats (p : Seat → Bool) (f : Seat → Seat) (seats : List Seat) :
    Nat × List Seat :=
  (seats.countP p, seats.map fun s => if p s then f s else s)

/-- `findUnique({ where: { id: seatId } })` on the seat table. -/
def findSeat (seats : List Seat) (seatId : String) : Option Seat :=
  seats.find? fun s => decide (s.id = seatId)

/-- `holdExpired` as computed in the reserve and hold transactions:
the seat is on hold and `holdExpiresAt` is non-null and `<= now`. -/
def holdIsExpired (s : Seat) (now : Int) : Bool :=
  decide (s.status = SeatStatus.HOLD) &&
    (match s.holdExpiresAt with
     | some t => decide (t ≤ now)
     | none => false)

/-- The version guard of the reserve and hold transactions:
`WHERE id = seat.id AND version = seat.version`. -/
def versionGuard (seat : Seat) (s : Seat) : Bool :=
  decide (s.id = seat.id ∧ s.version = seat.version)

/-- The seat write of the reserve transaction: set `status = BOOKED`,
clear `holdExpiresAt`, increment `version`. -/
def bookSeatUpdate (s : Seat) : Seat :=
  { s with status := .BOOKED, holdExpiresAt := none, version := s.version + 1 }

/-- The transaction body of `BookingService.createBooking` (the Redlock
variant).  The seat is read from `readDb`; the writes are applied to
`writeDb`, which coincides with `readDb` unless a concurrent commit slipped
between the read and the write.  A thrown failure returns `writeDb`
unchanged: the transaction rolls back, undoing the booking insert. -/
def createBookingTx (readDb writeDb : DB) (seatId userId key : String)
    (now : Int) : DB × Except BookingFailure Booking :=
  match findSeat readDb.seats seatId with
  | none => (writeDb, .error .seatNotFound)
  | some seat =>
    if seat.status = SeatStatus.BOOKED then
      (writeDb, .error .alreadyBooked)
    else if seat.status = SeatStatus.HOLD ∧ holdIsExpired seat now = false then
      (writeDb, .error .onHold)
    else
      let booking : Booking :=
        { seatId := seatId, userId := userId, status := .CONFIRMED,
          idempotencyKey := key, expiresAt := none }
      let upd := updateManySeats (versionGuard seat) bookSeatUpdate writeDb.seats
      if upd.1 = 0 then
        (writeDb, .error .versionMismatch)
      else
        ({ seats := upd.2, bookings := writeDb.bookings ++ [booking] }, .ok booking)

/-- The reserve operation run atomically: lock held, no interference, so
the transaction reads and writes the same state. -/
def reserveStep (db : DB) (seatId userId key : String) (now : Int) :
    DB × Except BookingFailure Booking :=
  createBookingTx db db seatId userId key now

/-- The seat write of `SeatService.holdSeat`: set `status = HOLD`, set the
fresh `holdExpiresAt`, increment `version`. -/
def holdSeatUpdate (holdExpiresAt : Int) (s : Seat) : Seat :=
  { s with
    status := .HOLD
    holdExpiresAt := some holdExpiresAt
    version := s.version + 1 }

/-- `SeatService.holdSeat` run atomically: reject a booked seat and a live
hold, otherwise apply the version-guarded update to HOLD with a fresh
expiry `now + holdTtlMs`. -/
def holdSeatStep (db : DB) (seatId : String) (now holdTtlMs : Int) :
    DB × Except BookingFailure Unit :=
  match findSeat db.seats seatId with
  | none => (db, .error .seatNotFound)
  | some seat =>
    if seat.status = SeatStatus.BOOKED then
      (db, .error .alreadyBooked)
    else if seat.status = SeatStatus.HOLD ∧ holdIsExpired seat now = false then
      (db, .error .onHold)
    else
      let upd := updateManySeats (versionGuard seat) (holdSeatUpdate (now + holdTtlMs)) db.seats
      if upd.1 = 0 then
        (db, .error .versionMismatch)
      else
        ({ db with seats := upd.2 }, .ok ())

/-- The `where` filter of the hold reaper:
`status = HOLD AND holdExpiresAt < now` (a null expiry never matches). -/
def releaseHoldFilter (now : Int) (s : Seat) : Bool :=
  decide (s.status = SeatStatus.HOLD) &&
    (match s.holdExpiresAt with
     | some t => decide (t < now)
     | none => false)

/-- The `data` of the hold reaper: set AVAILABLE, clear the expiry,
increment the version. -/
def releaseHoldUpdate (s : Seat) : Seat :=
  { s with
    status := .AVAILABLE
    holdExpiresAt := none
    version := s.version + 1 }

/-- The hold reaper `SeatService.releaseExpiredHolds`: bulk-update seats
with `status = HOLD` and `holdExpiresAt < now` to AVAILABLE, clearing the
expiry and incrementing the version; returns the affected-row count. -/
def releaseExpiredHoldsStep (db : DB) (now : Int) : DB × Nat :=
  let upd := updateManySeats (releaseHoldFilter now) releaseHoldUpdate db.seats
  ({ db with seats := upd.2 }, upd.1)

/-- The filter of the booking-expiry reaper: `status = CONFIRMED` and
`expiresAt < now` (a null `expiresAt` never matches). -/
def bookingExpired (now : Int) (b : Booking) : Bool :=
  decide (b.status = BookingStatus.CONFIRMED) &&
    (match b.expiresAt with
     | some t => decide (t < now)
     | none => false)

/-- The `where` filter of the booking reaper on seats:
`id IN seatIds AND status = BOOKED`. -/
def expireSeatFilter (seatIds : List String) (s : Seat) : Bool :=
  decide (s.id ∈ seatIds) && decide (s.status = SeatStatus.BOOKED)

/-- The `data` of the booking reaper on seats: set AVAILABLE, increment
the version. -/
def expireSeatUpdate (s : Seat) : Seat :=
  { s with status := .AVAILABLE, version := s.version + 1 }

/-- The `data` of the booking reaper on bookings: set EXPIRED. -/
def expireBookingUpdate (b : Booking) : Booking :=
  { b with status := BookingStatus.EXPIRED }

/-- The booking-expiry reaper `BookingCleanupService.expireBookings`:
inside one transaction, select the expired CONFIRMED bookings, bulk-update
them to EXPIRED, and bulk-update their still-BOOKED seats to AVAILABLE with
a version increment; returns the number of expired bookings. -/
def expireBookingsStep (db : DB) (now : Int) : DB × Nat :=
  let expired := db.bookings.filter (bookingExpired now)
  if expired.length = 0 then
    (db, 0)
  else
    let seatIds := expired.map Booking.seatId
    let bookings₂ := db.bookings.map fun b =>
      if bookingExpired now b then expireBookingUpdate b else b
    let upd := updateManySeats (expireSeatFilter seatIds) expireSeatUpdate db.seats
    ({ seats := upd.2, bookings := bookings₂ }, expired.length)

/-- The operations that write seat state, as they interleave at the
store of record (each runs atomically under its lock or transaction). -/
inductive Op : Type
  | reserve (seatId userId key : String) (now : Int) : Op
  | hold (seatId : String) (now holdTtlMs : Int) : Op
  | holdReaper (now : Int) : Op
  | bookingReaper (now : Int) : Op

/-- One atomic operation against the store. -/
def step (db : DB) : Op → DB
  | .reserve seatId userId key now => (reserveStep db seatId userId key now).1
  | .hold seatId now holdTtlMs => (holdSeatStep db seatId now holdTtlMs).1
  | .holdReaper now => (releaseExpiredHoldsStep db now).1
  | .bookingReaper now => (expireBookingsStep db now).1

/-- A sequence of operations against the store. -/
def run (db : DB) (ops : List Op) : DB := ops.foldl step db

/-- Whether a booking is a CONFIRMED booking of the given seat. -/
def confirmedFor (seatId : String) (b : Booking) : Bool :=
  decide (b.seatId = seatId ∧ b.status = BookingStatus.CONFIRMED)

/-- How many CONFIRMED bookings a seat has. -/
def confirmedCount (db : DB) (seatId : String) : Nat :=
  db.bookings.countP (confirmedFor seatId)

/-- The double-booking invariant: at most one CONFIRMED booking per seat. -/
def AtMostOneConfirmed (db : DB) : Prop :=
  ∀ seatId, confirmedCount db seatId ≤ 1

/-- Every seat holding a CONFIRMED booking is BOOKED. -/
def ConfirmedSeatsBooked (db : DB) : Prop :=
  ∀ b ∈ db.bookings, b.status = BookingStatus.CONFIRMED →
    ∀ s ∈ db.seats, s.id = b.seatId → s.status = SeatStatus.BOOKED

/-- Seat ids are pairwise distinct (the primary key of the seat table). -/
def SeatIdsNodup (db : DB) : Prop :=
  (db.seats.map Seat.id).Nodup

/-- A well-formed store: distinct seat ids, at most one CONFIRMED booking
per seat, and every seat with a CONFIRMED booking is BOOKED. -/
structure WellFormed (db : DB) : Prop where
  nodup : SeatIdsNodup db
  atMostOne : AtMostOneConfirmed db
  confirmedBooked : ConfirmedSeatsBooked db

/-- Row-level version discipline between an old and a new seat table: the
rows correspond position by position, and each row is either completely
untouched or has its version incremented by exactly 1. -/
def VersionMono (old new : List Seat) : Prop :=
  new.length = old.length ∧
  ∀ i (h₁ : i < old.length) (h₂ : i < new.length),
    new.get ⟨i, h₂⟩ = old.get ⟨i, h₁⟩ ∨
    (new.get ⟨i, h₂⟩).version = (old.get ⟨i, h₁⟩).version + 1

/-! ### Generic lemmas about the embedded store operations -/

theorem mem_updateManySeats {p : Seat → Bool} {f : Seat → Seat}
    {seats : List Seat} {s₂ : Seat} (h : s₂ ∈ (updateManySeats p f seats).2) :
    ∃ s ∈ seats, s₂ = if p s then f s else s := by
  simp only [updateManySeats, List.mem_map] at h
  rcases h with ⟨s, hs, hval⟩
  exact ⟨s, hs, hval.symm⟩

theorem updateManySeats_map_id (p : Seat → Bool) (f : Seat → Seat)
    (hf : ∀ s, (f s).id = s.id) (seats : List Seat) :
    ((updateManySeats p f seats).2).map Seat.id = seats.map Seat.id := by
  simp only [updateManySeats, List.map_map]
  refine List.map_congr_left ?_
  intro s _
  by_cases hp : p s <;> simp [Function.comp, hp, hf]

theorem mem_id_eq_of_nodup {seats : List Seat}
    (hn : (seats.map Seat.id).Nodup) {s₁ s₂ : Seat}
    (h₁ : s₁ ∈ seats) (h₂ : s₂ ∈ seats) (h : s₁.id = s₂.id) : s₁ = s₂ :=
  List.inj_on_of_nodup_map hn h₁ h₂ h

theorem two_le_countP {α : Type} {p : α → Bool} {l : List α} {a b : α}
    (ha : a ∈ l) (hb : b ∈ l) (hne : a ≠ b)
    (hpa : p a = true) (hpb : p b = true) : 2 ≤ l.countP p := by
  induction l with
  | nil => cases ha
  | cons x xs ih =>
    rcases List.mem_cons.mp ha with rfl | ha₂
    · rcases List.mem_cons.mp hb with rfl | hb₂
      · exact absurd rfl hne
      · have h1 : 0 < xs.countP p := List.countP_pos_iff.mpr ⟨b, hb₂, hpb⟩
        simp only [List.countP_cons, hpa, if_true]
        omega
    · rcases List.mem_cons.mp hb with rfl | hb₂
      · have h1 : 0 < xs.countP p := List.countP_pos_iff.mpr ⟨a, ha₂, hpa⟩
        simp only [List.countP_cons, hpb, if_true]
        omega
      · have h2 := ih ha₂ hb₂
        simp only [List.countP_cons]
        omega

theorem findSeat_id {seats : List Seat} {seatId : String} {seat : Seat}
    (h : findSeat seats seatId = some seat) : seat.id = seatId := by
  unfold findSeat at h
  have hp := List.find?_some h
  simpa using hp

theorem findSeat_mem {seats : List Seat} {seatId : String} {seat : Seat}
    (h : findSeat seats seatId = some seat) : seat ∈ seats := by
  unfold findSeat at h
  exact List.mem_of_find?_eq_some h

theorem versionGuard_self (seat : Seat) : versionGuard seat seat = true := by
  simp [versionGuard]

/-! ### Claim theorems: config accessor -/

/-- C9: `envNumber` returns the coerced environment value only when it is
finite and strictly positive; NaN or infinite coercions (unset or
non-numeric input) and non-positive finite values all yield the default,
so whenever the compiled-in default is positive the resolved knob is
positive. -/
theorem claim_C9 (v : JsNumber) (d : ℚ) :
    (∀ q : ℚ, v = .finite q → 0 < q → envNumber v d = q) ∧
    (∀ q : ℚ, v = .finite q → q ≤ 0 → envNumber v d = d) ∧
    (jsIsFinite v = false → envNumber v d = d) ∧
    (0 < d → 0 < envNumber v d) := by
  refine ⟨?_, ?_, ?_, ?_⟩
  · rintro q rfl hq
    simp [envNumber, hq]
  · rintro q rfl hq
    simp [envNumber, not_lt.mpr hq]
  · intro hv
    cases v with
    | finite q => simp [jsIsFinite] at hv
    | nan => rfl
    | posInf => rfl
    | negInf => rfl
  · intro hd
    cases v with
    | finite q =>
      by_cases hq : 0 < q
      · simp only [envNumber, if_pos hq]
        exact hq
      · simpa [envNumber, hq] using hd
    | nan => exact hd
    | posInf => exact hd
    | negInf => exact hd

/-- C9 witness: a negative environment value for a knob with the positive
default 3 resolves to a positive number. -/
theorem claim_C9_witness :
    envNumber (.finite (-5)) 3 = 3 ∧ 0 < envNumber (.finite (-5)) 3 :=
  ⟨(claim_C9 (.finite (-5)) 3).2.1 (-5) rfl (by norm_num),
   (claim_C9 (.finite (-5)) 3).2.2.2 (by norm_num)⟩

/-! ### Claim theorems: distributed lock manager -/

/-- C10: when the nominal TTL minus the floored drift discount is not
strictly positive, `acquireLock` throws the TTL-too-short conflict before
issuing any set-if-absent round, whatever the nodes would have answered:
the nodes are left untouched. -/
theorem claim_C10 (cfg : RedlockConfig) (ttlMs elapsed0 : Int)
    (obs : List AttemptObs)
    (hshort : ttlMs - driftDiscount cfg ttlMs ≤ 0) (h0 : 0 ≤ elapsed0) :
    acquireLock cfg ttlMs elapsed0 obs = .tooShort := by
  unfold acquireLock
  rw [if_pos]
  omega

/-- C10 witness: drift factor 1 makes the discount swallow the whole TTL,
and the acquisition fails up front. -/
theorem claim_C10_witness :
    (100 : Int) - driftDiscount ⟨1, 1, 3, 200⟩ 100 ≤ 0 ∧
    acquireLock ⟨1, 1, 3, 200⟩ 100 0
      [⟨[true], 0⟩, ⟨[true], 0⟩, ⟨[true], 0⟩] = .tooShort :=
  ⟨by norm_num [driftDiscount],
   claim_C10 ⟨1, 1, 3, 200⟩ 100 0 [⟨[true], 0⟩, ⟨[true], 0⟩, ⟨[true], 0⟩]
     (by norm_num [driftDiscount]) (by decide)⟩

theorem acquireLoop_all_below (q : Nat) (ttlMs drift : Int)
    (obs : List AttemptObs) (used rollbacks : Nat)
    (h : ∀ o ∈ obs, o.nodeAcquired.count true < q) :
    acquireLoop q ttlMs drift obs used rollbacks =
      .unavailable (used + obs.length) (rollbacks + obs.length) := by
  induction obs generalizing used rollbacks with
  | nil => simp [acquireLoop]
  | cons o rest ih =>
    have ho := h o (List.mem_cons_self o rest)
    rw [acquireLoop, if_neg (by omega)]
    rw [ih (used + 1) (rollbacks + 1) fun o₂ h₂ => h o₂ (List.mem_cons_of_mem o h₂)]
    simp only [List.length_cons]
    congr 1 <;> omega

theorem acquireLoop_first_quorum (q : Nat) (ttlMs drift : Int)
    (pre : List AttemptObs) (o : AttemptObs) (post : List AttemptObs)
    (used rollbacks : Nat)
    (hpre : ∀ o₂ ∈ pre, o₂.nodeAcquired.count true < q)
    (ho : q ≤ o.nodeAcquired.count true) :
    acquireLoop q ttlMs drift (pre ++ o :: post) used rollbacks =
      .held (max (ttlMs - o.elapsedMs - drift) 0)
        (used + pre.length + 1) (rollbacks + pre.length) := by
  induction pre generalizing used rollbacks with
  | nil =>
    simp only [List.nil_append, List.length_nil, Nat.add_zero]
    rw [acquireLoop, if_pos ho]
  | cons o₂ rest ih =>
    have h₂ := hpre o₂ (List.mem_cons_self o₂ rest)
    rw [List.cons_append, acquireLoop, if_neg (by omega)]
    rw [ih (used + 1) (rollbacks + 1) (fun o₃ h₃ => hpre o₃ (List.mem_cons_of_mem o₂ h₃))]
    simp only [List.length_cons]
    congr 1 <;> omega

/-- C5 (amended): when the up-front validity check passes, the lock is
reported held as soon as one attempt reaches quorum, with the remaining
validity `ttl − elapsed − floor(ttl·driftFactor)` clamped to at least zero
rather than required to be strictly positive; when every attempt misses
quorum, every attempt is rolled back with the compare-and-delete and the
call fails lock-unavailable after `retryCount` attempts. -/
theorem claim_C5 (cfg : RedlockConfig) (ttlMs elapsed0 : Int)
    (obs pre post : List AttemptObs) (o : AttemptObs)
    (hpos : 0 < ttlMs - driftDiscount cfg ttlMs - elapsed0) :
    ((∀ o₂ ∈ obs, o₂.nodeAcquired.count true < quorum cfg) →
      obs.length = cfg.retryCount →
      acquireLock cfg ttlMs elapsed0 obs =
        .unavailable cfg.retryCount cfg.retryCount) ∧
    (obs = pre ++ o :: post →
      (∀ o₂ ∈ pre, o₂.nodeAcquired.count true < quorum cfg) →
      quorum cfg ≤ o.nodeAcquired.count true →
      acquireLock cfg ttlMs elapsed0 obs =
        .held (max (ttlMs - o.elapsedMs - driftDiscount cfg ttlMs) 0)
          (pre.length + 1) pre.length) := by
  constructor
  · intro hall hlen
    rw [acquireLock, if_neg (by omega)]
    rw [acquireLoop_all_below _ _ _ _ _ _ hall]
    rw [hlen]
    simp
  · rintro rfl hpre ho
    rw [acquireLock, if_neg (by omega)]
    rw [acquireLoop_first_quorum _ _ _ _ _ _ _ _ hpre ho]
    simp

/-- C5 witness: three nodes, quorum two; three straight rounds with a
single node success each are all rolled back and the acquisition fails
lock-unavailable, and a first round with two node successes is reported
held. -/
theorem claim_C5_witness :
    acquireLock ⟨3, 1/100, 3, 200⟩ 100 0
      [⟨[true, false, false], 10⟩, ⟨[false, false, false], 10⟩,
       ⟨[false, true, false], 10⟩] = .unavailable 3 3 ∧
    acquireLock ⟨3, 1/100, 3, 200⟩ 100 0
      [⟨[true, true, false], 10⟩, ⟨[false, false, false], 10⟩,
       ⟨[false, false, false], 10⟩] = .held 89 1 0 := by
  have hd : driftDiscount ⟨3, 1/100, 3, 200⟩ 100 = 1 := by
    norm_num [driftDiscount]
  constructor
  · exact (claim_C5 ⟨3, 1/100, 3, 200⟩ 100 0 _ [] [] ⟨[], 0⟩
      (by rw [hd]; norm_num)).1 (by decide) (by decide)
  · have h := (claim_C5 ⟨3, 1/100, 3, 200⟩ 100 0 _ []
      [⟨[false, false, false], 10⟩, ⟨[false, false, false], 10⟩]
      ⟨[true, true, false], 10⟩ (by rw [hd]; norm_num)).2 rfl
      (by decide) (by decide)
    rw [hd] at h
    simpa using h

/-- C5 counterexample: with three nodes, drift factor 1/100 and TTL 100,
an attempt that reaches quorum only after 200 ms of elapsed time has a
negative remaining validity `ttl − elapsed − floor(ttl·driftFactor)`, yet
`acquireLock` reports the lock held with the validity clamped to zero
instead of rolling the nodes back and retrying. -/
theorem claim_C5_counterexample :
    quorum ⟨3, 1/100, 3, 200⟩ ≤ [true, true, false].count true ∧
    (100 : Int) - 200 - driftDiscount ⟨3, 1/100, 3, 200⟩ 100 < 0 ∧
    acquireLock ⟨3, 1/100, 3, 200⟩ 100 0
      [⟨[true, true, false], 200⟩, ⟨[false, false, false], 0⟩,
       ⟨[false, false, false], 0⟩] = .held 0 1 0 := by
  have hd : driftDiscount ⟨3, 1/100, 3, 200⟩ 100 = 1 := by
    norm_num [driftDiscount]
  refine ⟨by decide, by rw [hd]; norm_num, ?_⟩
  rw [acquireLock, if_neg (by rw [hd]; norm_num)]
  rw [acquireLoop, if_pos (by decide)]
  rw [hd]
  norm_num

/-- C7: once the lock has been acquired, `withLock` performs exactly one
release on both the return path and the throw path of the body, re-raises
a body failure unchanged and returns a body value unchanged; the release
settles every node and never fails, with individual node rejections
swallowed. -/
theorem claim_C7 {E T NodeErr : Type} (body : Except E T) :
    (withLock (.ok ()) body).releaseCalls = 1 ∧
    (∀ e : E, body = .error e → (withLock (.ok ()) body).result = .error e) ∧
    (∀ v : T, body = .ok v → (withLock (.ok ()) body).result = .ok v) ∧
    (∀ nodeResults : List (Except NodeErr Bool),
      (releaseLockOnAllInstances nodeResults).length = nodeResults.length) ∧
    (∀ errs : List NodeErr,
      releaseLockOnAllInstances (errs.map Except.error) =
        errs.map SettledOutcome.rejected) := by
  refine ⟨?_, ?_, ?_, ?_, ?_⟩
  · cases body <;> rfl
  · rintro e rfl
    rfl
  · rintro v rfl
    rfl
  · intro nodeResults
    simp [releaseLockOnAllInstances, allSettled]
  · intro errs
    simp [releaseLockOnAllInstances, allSettled, List.map_map]

/-- C7 witness: a failing body still triggers the single release and its
failure is re-raised unchanged, while a release over two rejecting nodes
settles both. -/
theorem claim_C7_witness :
    (withLock (.ok () : Except String Unit) (.error "boom" : Except String Nat)).releaseCalls = 1 ∧
    (withLock (.ok () : Except String Unit) (.error "boom" : Except String Nat)).result = .error "boom" ∧
    (releaseLockOnAllInstances
      ([Except.error "down", Except.error "down"] : List (Except String Bool))).length = 2 :=
  ⟨(@claim_C7 String Nat String (.error "boom")).1,
   (@claim_C7 String Nat String (.error "boom")).2.1 "boom" rfl,
   (@claim_C7 String Nat String (.error "boom")).2.2.2.1
     [Except.error "down", Except.error "down"]⟩

/-! ### Claim theorems: idempotency coordinator -/

theorem checkOrCreate_of_tx {E : Type} {records : List IdempotencyRecord}
    {key requestHash : String} {now ttlMs : Int} {work : Except E (String × Int)}
    (hkey : key ≠ "") (X : Except (IdemFailure E) IdemResult)
    (hX : checkOrCreateTx E records key requestHash now ttlMs work = (records, X, false)) :
    checkOrCreate E records key requestHash now ttlMs work =
      ⟨records, X, false⟩ := by
  unfold checkOrCreate
  rw [if_neg hkey, hX]
  cases X <;> rfl

/-- C6: a SUCCESS record with matching request hash replays the stored
response and status code verbatim without running the work closure and
without touching the table; a SUCCESS record whose cached response data or
status code is missing makes the call fail with the internal-inconsistency
error rather than being swallowed. -/
theorem claim_C6 {E : Type} (records : List IdempotencyRecord)
    (key requestHash : String) (now ttlMs : Int) (work : Except E (String × Int))
    (r : IdempotencyRecord) (hkey : key ≠ "")
    (hfind : findRecord records key = some r)
    (hhash : r.requestHash = requestHash) (hstate : r.state = .SUCCESS) :
    (∀ data code, r.responseData = some data → data ≠ "" → r.statusCode = some code →
      checkOrCreate E records key requestHash now ttlMs work =
        ⟨records,
         .ok { isDuplicate := true, cachedResponse := data, statusCode := code },
         false⟩) ∧
    (r.responseData = none ∨ r.statusCode = none →
      checkOrCreate E records key requestHash now ttlMs work =
        ⟨records, .error .cachedResponseMissing, false⟩) := by
  constructor
  · intro data code hdata hne hcode
    refine checkOrCreate_of_tx hkey _ ?_
    simp only [checkOrCreateTx, hfind]
    rw [if_neg (fun h₂ => h₂ hhash), if_pos hstate]
    simp only [hdata, hcode]
    rw [if_neg hne]
  · intro hmiss
    refine checkOrCreate_of_tx hkey _ ?_
    simp only [checkOrCreateTx, hfind]
    rw [if_neg (fun h₂ => h₂ hhash), if_pos hstate]
    rcases hmiss with hnone | hnone <;>
      cases hrd : r.responseData <;> cases hsc : r.statusCode <;>
        simp_all

/-- C6 witness: a concrete SUCCESS record with cached payload replays it
without running work; the same record stripped of its status code fails
with the internal-inconsistency error. -/
theorem claim_C6_witness :
    checkOrCreate Unit
        [⟨"k1", .SUCCESS, "h1", some "resp", some 201, 0, 1, 300000⟩]
        "k1" "h1" 50 300000 (.ok ("other", 200)) =
      ⟨[⟨"k1", .SUCCESS, "h1", some "resp", some 201, 0, 1, 300000⟩],
       .ok { isDuplicate := true, cachedResponse := "resp", statusCode := 201 },
       false⟩ ∧
    checkOrCreate Unit
        [⟨"k1", .SUCCESS, "h1", some "resp", none, 0, 1, 300000⟩]
        "k1" "h1" 50 300000 (.ok ("other", 200)) =
      ⟨[⟨"k1", .SUCCESS, "h1", some "resp", none, 0, 1, 300000⟩],
       .error .cachedResponseMissing, false⟩ :=
  ⟨(claim_C6 [⟨"k1", .SUCCESS, "h1", some "resp", some 201, 0, 1, 300000⟩]
      "k1" "h1" 50 300000 (.ok ("other", 200)) _ (by decide) rfl rfl rfl).1
      "resp" 201 rfl (by decide) rfl,
   (claim_C6 [⟨"k1", .SUCCESS, "h1", some "resp", none, 0, 1, 300000⟩]
      "k1" "h1" 50 300000 (.ok ("other", 200)) _ (by decide) rfl rfl rfl).2
      (Or.inr rfl)⟩

/-- C3: evaluation at the failing input.  For a fresh key whose work
closure fails, `checkOrCreate` does propagate the original failure, but
the transaction wrapping the whole call rolls the FAILED finalization back
together with the record creation, so that afterwards no record at all
exists for the key — in particular none in state FAILED. -/
theorem claim_C3_failing :
    (checkOrCreate Unit [] "k1" "h1" 0 300000 (.error ())).result =
        .error (.workFailed ()) ∧
    (checkOrCreate Unit [] "k1" "h1" 0 300000 (.error ())).workRan = true ∧
    (checkOrCreate Unit [] "k1" "h1" 0 300000 (.error ())).records = [] ∧
    findRecord (checkOrCreate Unit [] "k1" "h1" 0 300000 (.error ())).records
        "k1" = none := by
  refine ⟨rfl, rfl, rfl, rfl⟩

/-- C4: evaluation at the failing input.  A call hitting a stale
IN_PROGRESS record (age exceeding the TTL) does fail, but the FAILED
transition is rolled back together with the thrown conflict, so the record
stays IN_PROGRESS, and a later caller with the same key and hash hits the
timed-out branch again — not the FAILED (previous-failure) branch — and
still never re-runs work. -/
theorem claim_C4_failing :
    (checkOrCreate Unit [⟨"k1", .IN_PROGRESS, "h1", none, none, 0, 0, 300000⟩]
        "k1" "h1" 300001 300000 (.ok ("x", 201))).result =
        .error .requestTimedOut ∧
    (checkOrCreate Unit [⟨"k1", .IN_PROGRESS, "h1", none, none, 0, 0, 300000⟩]
        "k1" "h1" 300001 300000 (.ok ("x", 201))).records =
        [⟨"k1", .IN_PROGRESS, "h1", none, none, 0, 0, 300000⟩] ∧
    (checkOrCreate Unit
        (checkOrCreate Unit [⟨"k1", .IN_PROGRESS, "h1", none, none, 0, 0, 300000⟩]
          "k1" "h1" 300001 300000 (.ok ("x", 201))).records
        "k1" "h1" 300002 300000 (.ok ("x", 201))).result =
        .error .requestTimedOut ∧
    (checkOrCreate Unit
        (checkOrCreate Unit [⟨"k1", .IN_PROGRESS, "h1", none, none, 0, 0, 300000⟩]
          "k1" "h1" 300001 300000 (.ok ("x", 201))).records
        "k1" "h1" 300002 300000 (.ok ("x", 201))).result ≠
        .error .previousFailure ∧
    (checkOrCreate Unit
        (checkOrCreate Unit [⟨"k1", .IN_PROGRESS, "h1", none, none, 0, 0, 300000⟩]
          "k1" "h1" 300001 300000 (.ok ("x", 201))).records
        "k1" "h1" 300002 300000 (.ok ("x", 201))).workRan = false := by
  refine ⟨rfl, rfl, rfl, by decide, rfl⟩

/-! ### Branch lemmas for the reserve and hold transactions -/

theorem createBookingTx_notFound {readDb : DB} (writeDb : DB)
    {seatId : String} (userId key : String) (now : Int)
    (h : findSeat readDb.seats seatId = none) :
    createBookingTx readDb writeDb seatId userId key now =
      (writeDb, .error .seatNotFound) := by
  simp only [createBookingTx, h]

theorem createBookingTx_booked {readDb : DB} (writeDb : DB)
    {seatId : String} (userId key : String) (now : Int) {seat : Seat}
    (h : findSeat readDb.seats seatId = some seat)
    (hb : seat.status = SeatStatus.BOOKED) :
    createBookingTx readDb writeDb seatId userId key now =
      (writeDb, .error .alreadyBooked) := by
  simp only [createBookingTx, h]
  rw [if_pos hb]

theorem createBookingTx_onHold {readDb : DB} (writeDb : DB)
    {seatId : String} (userId key : String) {now : Int} {seat : Seat}
    (h : findSeat readDb.seats seatId = some seat)
    (hh : seat.status = SeatStatus.HOLD)
    (hx : holdIsExpired seat now = false) :
    createBookingTx readDb writeDb seatId userId key now =
      (writeDb, .error .onHold) := by
  simp only [createBookingTx, h]
  rw [if_neg (by simp [hh]), if_pos ⟨hh, hx⟩]

theorem createBookingTx_proceed {readDb : DB} (writeDb : DB)
    {seatId : String} (userId key : String) {now : Int} {seat : Seat}
    (h : findSeat readDb.seats seatId = some seat)
    (hnb : seat.status ≠ SeatStatus.BOOKED)
    (hnh : ¬(seat.status = SeatStatus.HOLD ∧ holdIsExpired seat now = false)) :
    createBookingTx readDb writeDb seatId userId key now =
      (if writeDb.seats.countP (versionGuard seat) = 0 then
        (writeDb, .error .versionMismatch)
      else
        ({ seats := (updateManySeats (versionGuard seat) bookSeatUpdate writeDb.seats).2,
           bookings := writeDb.bookings ++
             [⟨seatId, userId, .CONFIRMED, key, none⟩] },
         .ok ⟨seatId, userId, .CONFIRMED, key, none⟩)) := by
  simp only [createBookingTx, h]
  rw [if_neg hnb, if_neg hnh]
  rfl

theorem createBookingTx_mismatch {readDb : DB} (writeDb : DB)
    {seatId : String} (userId key : String) {now : Int} {seat : Seat}
    (h : findSeat readDb.seats seatId = some seat)
    (hnb : seat.status ≠ SeatStatus.BOOKED)
    (hnh : ¬(seat.status = SeatStatus.HOLD ∧ holdIsExpired seat now = false))
    (hcount : writeDb.seats.countP (versionGuard seat) = 0) :
    createBookingTx readDb writeDb seatId userId key now =
      (writeDb, .error .versionMismatch) := by
  rw [createBookingTx_proceed writeDb userId key h hnb hnh, if_pos hcount]

theorem createBookingTx_success {readDb : DB} (writeDb : DB)
    {seatId : String} (userId key : String) {now : Int} {seat : Seat}
    (h : findSeat readDb.seats seatId = some seat)
    (hnb : seat.status ≠ SeatStatus.BOOKED)
    (hnh : ¬(seat.status = SeatStatus.HOLD ∧ holdIsExpired seat now = false))
    (hcount : writeDb.seats.countP (versionGuard seat) ≠ 0) :
    createBookingTx readDb writeDb seatId userId key now =
      ({ seats := (updateManySeats (versionGuard seat) bookSeatUpdate writeDb.seats).2,
         bookings := writeDb.bookings ++ [⟨seatId, userId, .CONFIRMED, key, none⟩] },
       .ok ⟨seatId, userId, .CONFIRMED, key, none⟩) := by
  rw [createBookingTx_proceed writeDb userId key h hnb hnh, if_neg hcount]

theorem reserveStep_count_pos {db : DB} {seatId : String} {seat : Seat}
    (h : findSeat db.seats seatId = some seat) :
    db.seats.countP (versionGuard seat) ≠ 0 := by
  have hmem := findSeat_mem h
  have hpos : 0 < db.seats.countP (versionGuard seat) :=
    List.countP_pos_iff.mpr ⟨seat, hmem, versionGuard_self seat⟩
  omega

theorem holdSeatStep_notFound {db : DB} {seatId : String} (now holdTtlMs : Int)
    (h : findSeat db.seats seatId = none) :
    holdSeatStep db seatId now holdTtlMs = (db, .error .seatNotFound) := by
  simp only [holdSeatStep, h]

theorem holdSeatStep_booked {db : DB} {seatId : String} (now holdTtlMs : Int)
    {seat : Seat} (h : findSeat db.seats seatId = some seat)
    (hb : seat.status = SeatStatus.BOOKED) :
    holdSeatStep db seatId now holdTtlMs = (db, .error .alreadyBooked) := by
  simp only [holdSeatStep, h]
  rw [if_pos hb]

theorem holdSeatStep_onHold {db : DB} {seatId : String} {now : Int}
    (holdTtlMs : Int) {seat : Seat}
    (h : findSeat db.seats seatId = some seat)
    (hh : seat.status = SeatStatus.HOLD)
    (hx : holdIsExpired seat now = false) :
    holdSeatStep db seatId now holdTtlMs = (db, .error .onHold) := by
  simp only [holdSeatStep, h]
  rw [if_neg (by simp [hh]), if_pos ⟨hh, hx⟩]

theorem holdSeatStep_proceed {db : DB} {seatId : String} {now : Int}
    (holdTtlMs : Int) {seat : Seat}
    (h : findSeat db.seats seatId = some seat)
    (hnb : seat.status ≠ SeatStatus.BOOKED)
    (hnh : ¬(seat.status = SeatStatus.HOLD ∧ holdIsExpired seat now = false)) :
    holdSeatStep db seatId now holdTtlMs =
      (if db.seats.countP (versionGuard seat) = 0 then
        (db, .error .versionMismatch)
      else
        ({ db with seats := (updateManySeats (versionGuard seat)
            (holdSeatUpdate (now + holdTtlMs)) db.seats).2 },
         .ok ())) := by
  simp only [holdSeatStep, h]
  rw [if_neg hnb, if_neg hnh]
  rfl

theorem holdSeatStep_success {db : DB} {seatId : String} {now : Int}
    (holdTtlMs : Int) {seat : Seat}
    (h : findSeat db.seats seatId = some seat)
    (hnb : seat.status ≠ SeatStatus.BOOKED)
    (hnh : ¬(seat.status = SeatStatus.HOLD ∧ holdIsExpired seat now = false)) :
    holdSeatStep db seatId now holdTtlMs =
      ({ db with seats := (updateManySeats (versionGuard seat)
          (holdSeatUpdate (now + holdTtlMs)) db.seats).2 },
       .ok ()) := by
  rw [holdSeatStep_proceed holdTtlMs h hnb hnh,
    if_neg (reserveStep_count_pos h)]

/-! ### Claim theorems: resource state machine -/

/-- C2 (amended): with the seat read inside the transaction, reserve fails
already-booked on a BOOKED seat; it fails on-hold on a HOLD seat whose
`holdExpiresAt` is strictly in the future or missing — an expiry at or
before the current instant counts as expired and is bookable; otherwise it
inserts the CONFIRMED booking carrying the idempotency key and applies the
update guarded by the read version that sets BOOKED, clears
`holdExpiresAt` and increments the version; and a zero-row guarded update
fails version-mismatch with both writes rolled back, leaving the store as
it was. -/
theorem claim_C2 (readDb writeDb : DB) (seatId userId key : String)
    (now : Int) (seat : Seat)
    (hfind : findSeat readDb.seats seatId = some seat) :
    (seat.status = SeatStatus.BOOKED →
      createBookingTx readDb writeDb seatId userId key now =
        (writeDb, .error .alreadyBooked)) ∧
    (seat.status = SeatStatus.HOLD →
      (∀ t, seat.holdExpiresAt = some t → now < t) →
      createBookingTx readDb writeDb seatId userId key now =
        (writeDb, .error .onHold)) ∧
    (seat.status ≠ SeatStatus.BOOKED →
      ¬(seat.status = SeatStatus.HOLD ∧ holdIsExpired seat now = false) →
      (writeDb.seats.countP (versionGuard seat) = 0 →
        createBookingTx readDb writeDb seatId userId key now =
          (writeDb, .error .versionMismatch)) ∧
      (writeDb.seats.countP (versionGuard seat) ≠ 0 →
        createBookingTx readDb writeDb seatId userId key now =
          ({ seats := (updateManySeats (versionGuard seat) bookSeatUpdate writeDb.seats).2,
             bookings := writeDb.bookings ++ [⟨seatId, userId, .CONFIRMED, key, none⟩] },
           .ok ⟨seatId, userId, .CONFIRMED, key, none⟩))) := by
  refine ⟨?_, ?_, ?_⟩
  · intro hb
    exact createBookingTx_booked writeDb userId key now hfind hb
  · intro hh hfuture
    refine createBookingTx_onHold writeDb userId key hfind hh ?_
    cases hx : seat.holdExpiresAt with
    | none => simp [holdIsExpired, hx]
    | some t =>
      have ht := hfuture t hx
      simp [holdIsExpired, hx]
      omega
  · intro hnb hnh
    exact ⟨fun hc => createBookingTx_mismatch writeDb userId key hfind hnb hnh hc,
           fun hc => createBookingTx_success writeDb userId key hfind hnb hnh hc⟩

/-- C2 counterexample: a seat on hold whose `holdExpiresAt` equals the
current instant — an expiry that is not in the past — is not rejected with
the on-hold conflict as the claim requires: the code treats
`holdExpiresAt ≤ now` as expired and books the seat. -/
theorem claim_C2_counterexample :
    ¬((100 : Int) < 100) ∧
    (createBookingTx ⟨[⟨"s1", .HOLD, 0, some 100⟩], []⟩
        ⟨[⟨"s1", .HOLD, 0, some 100⟩], []⟩ "s1" "u1" "k1" 100).2 ≠
      .error .onHold ∧
    (createBookingTx ⟨[⟨"s1", .HOLD, 0, some 100⟩], []⟩
        ⟨[⟨"s1", .HOLD, 0, some 100⟩], []⟩ "s1" "u1" "k1" 100).2 =
      .ok ⟨"s1", "u1", .CONFIRMED, "k1", none⟩ :=
  ⟨by decide, by decide, by decide⟩

/-- C2 witness: reserving an AVAILABLE seat books it, increments its
version and records the CONFIRMED booking with the idempotency key. -/
theorem claim_C2_witness :
    createBookingTx ⟨[⟨"s1", .AVAILABLE, 0, none⟩], []⟩
        ⟨[⟨"s1", .AVAILABLE, 0, none⟩], []⟩ "s1" "u1" "k1" 0 =
      (⟨[⟨"s1", .BOOKED, 1, none⟩], [⟨"s1", "u1", .CONFIRMED, "k1", none⟩]⟩,
       .ok ⟨"s1", "u1", .CONFIRMED, "k1", none⟩) := by
  have h := (claim_C2 ⟨[⟨"s1", .AVAILABLE, 0, none⟩], []⟩
      ⟨[⟨"s1", .AVAILABLE, 0, none⟩], []⟩ "s1" "u1" "k1" 0
      ⟨"s1", .AVAILABLE, 0, none⟩ rfl).2.2 (by decide) (by decide)
  exact (h.2 (by decide)).trans (by decide)

theorem versionMono_refl (seats : List Seat) : VersionMono seats seats :=
  ⟨rfl, fun _ _ _ => Or.inl rfl⟩

theorem versionMono_updateMany (p : Seat → Bool) (f : Seat → Seat)
    (hf : ∀ s, (f s).version = s.version + 1) (seats : List Seat) :
    VersionMono seats (updateManySeats p f seats).2 := by
  refine ⟨by simp [updateManySeats], ?_⟩
  intro i h₁ h₂
  simp only [updateManySeats, List.get_eq_getElem, List.getElem_map]
  by_cases hp : p seats[i]
  · right
    simp [hp, hf]
  · left
    simp [hp]

/-- C8: every operation that writes seat state — reserve, hold, the hold
reaper and the booking-expiry reaper — leaves each seat row either
entirely untouched or with its version incremented by exactly 1; a
rejected or failed reserve or hold leaves the whole store unchanged, and a
successful one puts into the table the guarded rewrite of a matched row,
whose version is the old version plus 1. -/
theorem claim_C8 (db : DB) (seatId userId key : String) (now holdTtlMs : Int) :
    (∀ e, (reserveStep db seatId userId key now).2 = .error e →
      (reserveStep db seatId userId key now).1 = db) ∧
    (∀ b, (reserveStep db seatId userId key now).2 = .ok b →
      VersionMono db.seats (reserveStep db seatId userId key now).1.seats ∧
      ∃ s ∈ db.seats, s.id = seatId ∧
        bookSeatUpdate s ∈ (reserveStep db seatId userId key now).1.seats ∧
        (bookSeatUpdate s).version = s.version + 1) ∧
    (∀ e, (holdSeatStep db seatId now holdTtlMs).2 = .error e →
      (holdSeatStep db seatId now holdTtlMs).1 = db) ∧
    (∀ u, (holdSeatStep db seatId now holdTtlMs).2 = .ok u →
      VersionMono db.seats (holdSeatStep db seatId now holdTtlMs).1.seats ∧
      ∃ s ∈ db.seats, s.id = seatId ∧
        holdSeatUpdate (now + holdTtlMs) s ∈ (holdSeatStep db seatId now holdTtlMs).1.seats ∧
        (holdSeatUpdate (now + holdTtlMs) s).version = s.version + 1) ∧
    VersionMono db.seats (releaseExpiredHoldsStep db now).1.seats ∧
    VersionMono db.seats (expireBookingsStep db now).1.seats := by
  refine ⟨?_, ?_, ?_, ?_, ?_, ?_⟩
  · intro e he
    rcases hf : findSeat db.seats seatId with _ | seat
    · rw [reserveStep, createBookingTx_notFound db userId key now hf]
    · by_cases hb : seat.status = SeatStatus.BOOKED
      · rw [reserveStep, createBookingTx_booked db userId key now hf hb]
      · by_cases hnh : seat.status = SeatStatus.HOLD ∧ holdIsExpired seat now = false
        · rw [reserveStep, createBookingTx_onHold db userId key hf hnh.1 hnh.2]
        · rw [reserveStep, createBookingTx_success db userId key hf hb hnh
            (reserveStep_count_pos hf)] at he
          cases he
  · intro b hb₀
    rcases hf : findSeat db.seats seatId with _ | seat
    · rw [reserveStep, createBookingTx_notFound db userId key now hf] at hb₀
      cases hb₀
    · by_cases hb : seat.status = SeatStatus.BOOKED
      · rw [reserveStep, createBookingTx_booked db userId key now hf hb] at hb₀
        cases hb₀
      · by_cases hnh : seat.status = SeatStatus.HOLD ∧ holdIsExpired seat now = false
        · rw [reserveStep, createBookingTx_onHold db userId key hf hnh.1 hnh.2] at hb₀
          cases hb₀
        · rw [reserveStep,
            createBookingTx_success db userId key hf hb hnh (reserveStep_count_pos hf)]
          refine ⟨versionMono_updateMany _ _ (fun s => rfl) db.seats,
            seat, findSeat_mem hf, findSeat_id hf, ?_, rfl⟩
          have hmem : (if versionGuard seat seat then bookSeatUpdate seat else seat) ∈
              (updateManySeats (versionGuard seat) bookSeatUpdate db.seats).2 := by
            simp only [updateManySeats]
            exact List.mem_map_of_mem _ (findSeat_mem hf)
          rwa [if_pos (versionGuard_self seat)] at hmem
  · intro e he
    rcases hf : findSeat db.seats seatId with _ | seat
    · rw [holdSeatStep_notFound now holdTtlMs hf]
    · by_cases hb : seat.status = SeatStatus.BOOKED
      · rw [holdSeatStep_booked now holdTtlMs hf hb]
      · by_cases hnh : seat.status = SeatStatus.HOLD ∧ holdIsExpired seat now = false
        · rw [holdSeatStep_onHold holdTtlMs hf hnh.1 hnh.2]
        · rw [holdSeatStep_success holdTtlMs hf hb hnh] at he
          cases he
  · intro u hu
    rcases hf : findSeat db.seats seatId with _ | seat
    · rw [holdSeatStep_notFound now holdTtlMs hf] at hu
      cases hu
    · by_cases hb : seat.status = SeatStatus.BOOKED
      · rw [holdSeatStep_booked now holdTtlMs hf hb] at hu
        cases hu
      · by_cases hnh : seat.status = SeatStatus.HOLD ∧ holdIsExpired seat now = false
        · rw [holdSeatStep_onHold holdTtlMs hf hnh.1 hnh.2] at hu
          cases hu
        · rw [holdSeatStep_success holdTtlMs hf hb hnh]
          refine ⟨versionMono_updateMany _ _ (fun s => rfl) db.seats,
            seat, findSeat_mem hf, findSeat_id hf, ?_, rfl⟩
          have hmem : (if versionGuard seat seat then holdSeatUpdate (now + holdTtlMs) seat
              else seat) ∈
              (updateManySeats (versionGuard seat) (holdSeatUpdate (now + holdTtlMs))
                db.seats).2 := by
            simp only [updateManySeats]
            exact List.mem_map_of_mem _ (findSeat_mem hf)
          rwa [if_pos (versionGuard_self seat)] at hmem
  · exact versionMono_updateMany _ _ (fun s => rfl) db.seats
  · by_cases hlen : (db.bookings.filter (bookingExpired now)).length = 0
    · simp only [expireBookingsStep]
      rw [if_pos hlen]
      exact versionMono_refl db.seats
    · simp only [expireBookingsStep]
      rw [if_neg hlen]
      exact versionMono_updateMany _ _ (fun s => rfl) db.seats

/-- C8 witness: a successful reserve on an AVAILABLE seat keeps the
version discipline, and a rejected reserve on the resulting BOOKED seat
leaves the store unchanged. -/
theorem claim_C8_witness :
    VersionMono [⟨"s1", .AVAILABLE, 0, none⟩]
      (reserveStep ⟨[⟨"s1", .AVAILABLE, 0, none⟩], []⟩ "s1" "u1" "k1" 0).1.seats ∧
    (reserveStep ⟨[⟨"s1", .BOOKED, 1, none⟩], [⟨"s1", "u1", .CONFIRMED, "k1", none⟩]⟩
        "s1" "u2" "k2" 5).1 =
      ⟨[⟨"s1", .BOOKED, 1, none⟩], [⟨"s1", "u1", .CONFIRMED, "k1", none⟩]⟩ :=
  ⟨((claim_C8 ⟨[⟨"s1", .AVAILABLE, 0, none⟩], []⟩ "s1" "u1" "k1" 0 0).2.1
      ⟨"s1", "u1", .CONFIRMED, "k1", none⟩ (by decide)).1,
   (claim_C8 ⟨[⟨"s1", .BOOKED, 1, none⟩], [⟨"s1", "u1", .CONFIRMED, "k1", none⟩]⟩
      "s1" "u2" "k2" 5 0).1 .alreadyBooked (by decide)⟩

theorem versionGuard_eq_true {seat s : Seat} (h : versionGuard seat s = true) :
    s.id = seat.id ∧ s.version = seat.version :=
  of_decide_eq_true h

theorem confirmedFor_eq_true {seatId : String} {b : Booking} :
    confirmedFor seatId b = true ↔
      b.seatId = seatId ∧ b.status = BookingStatus.CONFIRMED := by
  simp [confirmedFor]

theorem wf_no_confirmed_of_not_booked {db : DB} (h : WellFormed db)
    {seat : Seat} (hmem : seat ∈ db.seats)
    (hnb : seat.status ≠ SeatStatus.BOOKED) :
    ∀ b ∈ db.bookings, confirmedFor seat.id b = false := by
  intro b hb
  by_contra hc
  simp only [Bool.not_eq_false] at hc
  rcases confirmedFor_eq_true.mp hc with ⟨hsid, hconf⟩
  exact hnb (h.confirmedBooked b hb hconf seat hmem hsid.symm)

theorem wf_reserveStep (db : DB) (seatId userId key : String) (now : Int)
    (h : WellFormed db) : WellFormed (reserveStep db seatId userId key now).1 := by
  rcases hf : findSeat db.seats seatId with _ | seat
  · rw [reserveStep, createBookingTx_notFound db userId key now hf]
    exact h
  · by_cases hb : seat.status = SeatStatus.BOOKED
    · rw [reserveStep, createBookingTx_booked db userId key now hf hb]
      exact h
    · by_cases hnh : seat.status = SeatStatus.HOLD ∧ holdIsExpired seat now = false
      · rw [reserveStep, createBookingTx_onHold db userId key hf hnh.1 hnh.2]
        exact h
      · rw [reserveStep, createBookingTx_success db userId key hf hb hnh
          (reserveStep_count_pos hf)]
        have hmem := findSeat_mem hf
        have hid := findSeat_id hf
        have hnone : ∀ b ∈ db.bookings, confirmedFor seatId b = false := by
          intro b hb₂
          have hcb := wf_no_confirmed_of_not_booked h hmem hb b hb₂
          rwa [hid] at hcb
        refine ⟨?_, ?_, ?_⟩
        · show ((updateManySeats (versionGuard seat) bookSeatUpdate db.seats).2.map
            Seat.id).Nodup
          rw [updateManySeats_map_id (versionGuard seat) bookSeatUpdate
            (fun s => rfl) db.seats]
          exact h.nodup
        · intro x
          show (db.bookings ++
            ([⟨seatId, userId, .CONFIRMED, key, none⟩] : List Booking)).countP
            (confirmedFor x) ≤ 1
          rw [List.countP_append]
          by_cases hx : x = seatId
          · subst hx
            have hzero : db.bookings.countP (confirmedFor x) = 0 :=
              List.countP_eq_zero.mpr fun b hb₂ => by simp [hnone b hb₂]
            rw [hzero]
            simp [List.countP_cons, confirmedFor]
          · have hxx : seatId ≠ x := fun hh => hx hh.symm
            have hone : ([⟨seatId, userId, .CONFIRMED, key, none⟩] :
                List Booking).countP (confirmedFor x) = 0 := by
              simp [List.countP_cons, confirmedFor, hxx]
            rw [hone, Nat.add_zero]
            exact h.atMostOne x
        · intro b₂ hb₂ hconf s₂ hs₂ hid₂
          rcases mem_updateManySeats hs₂ with ⟨s, hs, hval⟩
          by_cases hg : versionGuard seat s
          · have hbup : s₂ = bookSeatUpdate s := by rw [hval, if_pos hg]
            rw [hbup]
            rfl
          · have hs₂s : s₂ = s := by rw [hval, if_neg hg]
            rcases List.mem_append.mp hb₂ with hold | hnew
            · rw [hs₂s]
              rw [hs₂s] at hid₂
              exact h.confirmedBooked b₂ hold hconf s hs hid₂
            · exfalso
              have hb₂eq : b₂ = ⟨seatId, userId, .CONFIRMED, key, none⟩ := by
                simpa using hnew
              apply hg
              have hsid : s.id = seat.id := by
                rw [hs₂s] at hid₂
                rw [hid₂, hb₂eq, hid]
              have hseq : s = seat := mem_id_eq_of_nodup h.nodup hs hmem hsid
              rw [hseq]
              exact versionGuard_self seat

theorem wf_holdSeatStep (db : DB) (seatId : String) (now holdTtlMs : Int)
    (h : WellFormed db) : WellFormed (holdSeatStep db seatId now holdTtlMs).1 := by
  rcases hf : findSeat db.seats seatId with _ | seat
  · rw [holdSeatStep_notFound now holdTtlMs hf]
    exact h
  · by_cases hb : seat.status = SeatStatus.BOOKED
    · rw [holdSeatStep_booked now holdTtlMs hf hb]
      exact h
    · by_cases hnh : seat.status = SeatStatus.HOLD ∧ holdIsExpired seat now = false
      · rw [holdSeatStep_onHold holdTtlMs hf hnh.1 hnh.2]
        exact h
      · rw [holdSeatStep_success holdTtlMs hf hb hnh]
        have hmem := findSeat_mem hf
        refine ⟨?_, ?_, ?_⟩
        · show ((updateManySeats (versionGuard seat) (holdSeatUpdate (now + holdTtlMs))
            db.seats).2.map Seat.id).Nodup
          rw [updateManySeats_map_id (versionGuard seat)
            (holdSeatUpdate (now + holdTtlMs)) (fun s => rfl) db.seats]
          exact h.nodup
        · exact h.atMostOne
        · intro b₂ hb₂ hconf s₂ hs₂ hid₂
          rcases mem_updateManySeats hs₂ with ⟨s, hs, hval⟩
          by_cases hg : versionGuard seat s
          · exfalso
            have hup : s₂ = holdSeatUpdate (now + holdTtlMs) s := by
              rw [hval, if_pos hg]
            have hsb : s.id = b₂.seatId := by
              rw [hup] at hid₂
              exact hid₂
            have hsid := (versionGuard_eq_true hg).1
            exact hb (h.confirmedBooked b₂ hb₂ hconf seat hmem (hsid.symm.trans hsb))
          · have hs₂s : s₂ = s := by rw [hval, if_neg hg]
            rw [hs₂s]
            rw [hs₂s] at hid₂
            exact h.confirmedBooked b₂ hb₂ hconf s hs hid₂

theorem wf_holdReaperStep (db : DB) (now : Int) (h : WellFormed db) :
    WellFormed (releaseExpiredHoldsStep db now).1 := by
  refine ⟨?_, ?_, ?_⟩
  · show ((updateManySeats (releaseHoldFilter now) releaseHoldUpdate
      db.seats).2.map Seat.id).Nodup
    rw [updateManySeats_map_id (releaseHoldFilter now) releaseHoldUpdate
      (fun s => rfl) db.seats]
    exact h.nodup
  · exact h.atMostOne
  · intro b₂ hb₂ hconf s₂ hs₂ hid₂
    rcases mem_updateManySeats hs₂ with ⟨s, hs, hval⟩
    by_cases hg : releaseHoldFilter now s = true
    · exfalso
      have hhold : s.status = SeatStatus.HOLD := by
        simp only [releaseHoldFilter, Bool.and_eq_true, decide_eq_true_eq] at hg
        exact hg.1
      have hsb : s.id = b₂.seatId := by
        rw [hval, if_pos hg] at hid₂
        exact hid₂
      have hbk : s.status = SeatStatus.BOOKED :=
        h.confirmedBooked b₂ hb₂ hconf s hs hsb
      rw [hhold] at hbk
      cases hbk
    · have hs₂s : s₂ = s := by
        rw [hval, if_neg hg]
      rw [hs₂s]
      rw [hs₂s] at hid₂
      exact h.confirmedBooked b₂ hb₂ hconf s hs hid₂

theorem bookingExpired_eq_true {now : Int} {b : Booking}
    (h : bookingExpired now b = true) : b.status = BookingStatus.CONFIRMED := by
  simp only [bookingExpired, Bool.and_eq_true, decide_eq_true_eq] at h
  exact h.1

theorem wf_bookingReaperStep (db : DB) (now : Int) (h : WellFormed db) :
    WellFormed (expireBookingsStep db now).1 := by
  by_cases hlen : (db.bookings.filter (bookingExpired now)).length = 0
  · simp only [expireBookingsStep]
    rw [if_pos hlen]
    exact h
  · simp only [expireBookingsStep]
    rw [if_neg hlen]
    refine ⟨?_, ?_, ?_⟩
    · show ((updateManySeats
        (expireSeatFilter ((db.bookings.filter (bookingExpired now)).map
          Booking.seatId))
        expireSeatUpdate db.seats).2.map Seat.id).Nodup
      rw [updateManySeats_map_id
        (expireSeatFilter ((db.bookings.filter (bookingExpired now)).map
          Booking.seatId))
        expireSeatUpdate (fun s => rfl) db.seats]
      exact h.nodup
    · intro x
      show (db.bookings.map fun b =>
        if bookingExpired now b then expireBookingUpdate b else b).countP
        (confirmedFor x) ≤ 1
      rw [List.countP_map]
      refine le_trans (List.countP_mono_left ?_) (h.atMostOne x)
      intro b hb₂ hcb
      by_cases he : bookingExpired now b
      · exfalso
        simp only [Function.comp, he, if_true] at hcb
        rcases confirmedFor_eq_true.mp hcb with ⟨_, hst⟩
        simp [expireBookingUpdate] at hst
      · simpa [Function.comp, he] using hcb
    · intro b₂ hb₂ hconf s₂ hs₂ hid₂
      simp only [List.mem_map] at hb₂
      rcases hb₂ with ⟨b, hbmem, hbval⟩
      by_cases he : bookingExpired now b
      · exfalso
        rw [← hbval] at hconf
        simp only [he, if_true] at hconf
        simp [expireBookingUpdate] at hconf
      · have hb₂b : b₂ = b := by rw [← hbval, if_neg (by simp [he])]
        subst hb₂b
        rcases mem_updateManySeats hs₂ with ⟨s, hs, hval⟩
        by_cases hg : expireSeatFilter
            ((db.bookings.filter (bookingExpired now)).map Booking.seatId) s = true
        · exfalso
          have hsb : s.id = b₂.seatId := by
            rw [hval, if_pos hg] at hid₂
            exact hid₂
          simp only [expireSeatFilter, Bool.and_eq_true, decide_eq_true_eq] at hg
          rcases hg with ⟨hin, _⟩
          simp only [List.mem_map, List.mem_filter] at hin
          rcases hin with ⟨b₃, ⟨hb₃mem, hb₃exp⟩, hb₃id⟩
          have hne : b₂ ≠ b₃ := by
            intro heq
            rw [heq] at he
            exact he hb₃exp
          have hcb₂ : confirmedFor s.id b₂ = true :=
            confirmedFor_eq_true.mpr ⟨hsb.symm, hconf⟩
          have hcb₃ : confirmedFor s.id b₃ = true :=
            confirmedFor_eq_true.mpr ⟨hb₃id, bookingExpired_eq_true hb₃exp⟩
          have htwo := two_le_countP hbmem hb₃mem hne hcb₂ hcb₃
          have hone := h.atMostOne s.id
          exact absurd (le_trans htwo hone) (by norm_num)
        · have hs₂s : s₂ = s := by rw [hval, if_neg hg]
          rw [hs₂s]
          rw [hs₂s] at hid₂
          exact h.confirmedBooked b₂ hbmem hconf s hs hid₂

theorem wf_step (db : DB) (op : Op) (h : WellFormed db) :
    WellFormed (step db op) := by
  cases op with
  | reserve seatId userId key now => exact wf_reserveStep db seatId userId key now h
  | hold seatId now holdTtlMs => exact wf_holdSeatStep db seatId now holdTtlMs h
  | holdReaper now => exact wf_holdReaperStep db now h
  | bookingReaper now => exact wf_bookingReaperStep db now h

theorem wf_run (db : DB) (ops : List Op) (h : WellFormed db) :
    WellFormed (run db ops) := by
  induction ops generalizing db with
  | nil => exact h
  | cons op rest ih => exact ih (step db op) (wf_step db op h)

/-- C1 (amended): from a well-formed store — pairwise-distinct seat ids
(the primary key of the seat table), at most one CONFIRMED booking per seat,
and every seat holding a CONFIRMED booking marked BOOKED — every sequence
of reserve, hold, hold-reaper and booking-expiry-reaper operations
preserves "at most one CONFIRMED booking per seat": a reserve inserts a
CONFIRMED booking only when the seat it read is not BOOKED, and its
version-guarded update marks that seat BOOKED in the same transaction,
with a zero-row update aborting both writes. -/
theorem claim_C1 (db : DB) (h : WellFormed db) (ops : List Op) :
    AtMostOneConfirmed (run db ops) :=
  (wf_run db ops h).atMostOne

/-- C1 counterexample: "at most one CONFIRMED booking per seat" is not by
itself inductive, contrary to what the hypothesis of the claim requires.  In a store
satisfying it where the lone CONFIRMED booking sits on an AVAILABLE seat,
a reserve finds the seat bookable and inserts a second CONFIRMED booking
for the same seat. -/
theorem claim_C1_counterexample :
    AtMostOneConfirmed ⟨[⟨"s1", .AVAILABLE, 0, none⟩],
      [⟨"s1", "u0", .CONFIRMED, "k0", none⟩]⟩ ∧
    ¬ AtMostOneConfirmed (run ⟨[⟨"s1", .AVAILABLE, 0, none⟩],
      [⟨"s1", "u0", .CONFIRMED, "k0", none⟩]⟩ [.reserve "s1" "u1" "k1" 0]) := by
  constructor
  · intro x
    exact le_trans (List.countP_le_length _) (by norm_num)
  · intro hmono
    have h1 := hmono "s1"
    have h2 : confirmedCount (run ⟨[⟨"s1", .AVAILABLE, 0, none⟩],
        [⟨"s1", "u0", .CONFIRMED, "k0", none⟩]⟩ [.reserve "s1" "u1" "k1" 0])
        "s1" = 2 := by decide
    rw [h2] at h1
    norm_num at h1

/-- C1 witness: from a well-formed single-seat store, a reserve, a hold
attempt and both reapers leave at most one CONFIRMED booking per seat. -/
theorem claim_C1_witness :
    AtMostOneConfirmed (run ⟨[⟨"s1", .AVAILABLE, 0, none⟩], []⟩
      [.reserve "s1" "u1" "k1" 0, .hold "s1" 10 500, .holdReaper 20,
       .bookingReaper 30]) :=
  claim_C1 ⟨[⟨"s1", .AVAILABLE, 0, none⟩], []⟩
    ⟨by unfold SeatIdsNodup; decide,
     fun x => le_trans (List.countP_le_length _) (by norm_num),
     fun b hb => absurd hb (List.not_mem_nil b)⟩
    [.reserve "s1" "u1" "k1" 0, .hold "s1" 10 500, .holdReaper 20,
     .bookingReaper 30]

end BookingConc
